import Mathlib

/-!
# Verification of the hojas-de-ruta backend core

Shallow embedding of the concurrency-sensitive core of the route-sheet
backend (`src/backend/server.py`, `src/backend/retention_job.py`):

* `allocSeq` — the atomic counter increment at the heart of
  `create_route_sheet` (MongoDB `find_one_and_update` with `$inc`,
  `upsert=True`, `ReturnDocument.AFTER` on the `counters` collection);
* the retention engine (`internal_run_retention`, `admin_run_retention`,
  `run_retention_job`): hide pass, purge pass and the retention lock;
* the PDF cache (`get_cached_pdf`, `cache_pdf`, `invalidate_pdf_cache`)
  and the annulment endpoint `annul_route_sheet`;
* session revocation: the cookie refresh endpoint `refresh_tokens` with
  the `token_version` epoch, `change_password` / `logout` increments,
  and the one-time-use mobile rotation endpoint `mobile_refresh`.

Each MongoDB operation in the source is a single atomic step against the
shared store; the embedding mirrors that by making each such operation one
pure function on an explicit store value, so an arbitrary concurrent
history is an arbitrary interleaving (a list) of these atomic steps.
Instants are modelled as integers (`Int`), byte strings as `List Nat`.
-/

namespace HojasDeRuta

/-! ## Sequence allocation (`create_route_sheet`, server.py 1350-1362)

The `counters` collection holds one document per `(user_id, year)` with a
`seq` field.  `create_route_sheet` runs
`find_one_and_update({"user_id": u, "year": y}, {"$inc": {"seq": 1}},
upsert=True, return_document=AFTER)` and uses the returned `seq`.
-/

structure Counter where
  user_id : String
  year : Int
  seq : Nat
  deriving Repr, DecidableEq

/-- One atomic `find_one_and_update` with `$inc {seq: 1}`, `upsert=True`,
`ReturnDocument.AFTER`: the first document matching `(u, y)` is incremented
and its new `seq` returned; if none exists, a document is created whose
`seq` is `1` (the `$inc` applied to the absent field) and `1` is returned. -/
def allocSeq : List Counter → String → Int → Nat × List Counter
  | [], u, y => (1, [⟨u, y, 1⟩])
  | c :: cs, u, y =>
    if c.user_id = u ∧ c.year = y then
      (c.seq + 1, { c with seq := c.seq + 1 } :: cs)
    else
      let r := allocSeq cs u y
      (r.1, c :: r.2)

/-- The `seq` stored for `(u, y)` (the first matching document), `0` when
no counter document exists — the value the next `$inc` starts from. -/
def counterVal : List Counter → String → Int → Nat
  | [], _, _ => 0
  | c :: cs, u, y => if c.user_id = u ∧ c.year = y then c.seq else counterVal cs u y

/-- A serialised history of creations: each list element is the
`(owner, year)` of one `create_route_sheet` call; the first component of
the result pairs each call with the `seq_number` it received. -/
def allocRun : List Counter → List (String × Int) → List Nat × List Counter
  | cs, [] => ([], cs)
  | cs, (u, y) :: reqs =>
    let r := allocSeq cs u y
    let rest := allocRun r.2 reqs
    (r.1 :: rest.1, rest.2)

/-- The sequence numbers handed to the calls for owner `u` and year `y`,
in issuance order. -/
def resultsFor (reqs : List (String × Int)) (outs : List Nat) (u : String) (y : Int) :
    List Nat :=
  (reqs.zip outs).filterMap (fun p => if p.1.1 = u ∧ p.1.2 = y then some p.2 else none)

theorem allocSeq_fst (cs : List Counter) (u : String) (y : Int) :
    (allocSeq cs u y).1 = counterVal cs u y + 1 := by
  induction cs with
  | nil => simp [allocSeq, counterVal]
  | cons c cs ih =>
    by_cases h : c.user_id = u ∧ c.year = y
    · simp [allocSeq, counterVal, h]
    · simp [allocSeq, counterVal, h, ih]

theorem allocSeq_counterVal_self (cs : List Counter) (u : String) (y : Int) :
    counterVal (allocSeq cs u y).2 u y = counterVal cs u y + 1 := by
  induction cs with
  | nil => simp [allocSeq, counterVal]
  | cons c cs ih =>
    by_cases h : c.user_id = u ∧ c.year = y
    · simp [allocSeq, counterVal, h]
    · simp [allocSeq, counterVal, h, ih]

theorem allocSeq_counterVal_other (cs : List Counter) (u : String) (y : Int)
    (u' : String) (y' : Int) (h : ¬(u' = u ∧ y' = y)) :
    counterVal (allocSeq cs u y).2 u' y' = counterVal cs u' y' := by
  induction cs with
  | nil =>
    simp only [allocSeq, counterVal]
    rw [if_neg]
    rintro ⟨rfl, rfl⟩
    exact h ⟨rfl, rfl⟩
  | cons c cs ih =>
    by_cases hc : c.user_id = u ∧ c.year = y
    · have hne : ¬(c.user_id = u' ∧ c.year = y') := by
        rintro ⟨h1, h2⟩
        exact h ⟨h1 ▸ hc.1, h2 ▸ hc.2⟩
      simp only [allocSeq, if_pos hc, counterVal]
      rw [if_neg hne, if_neg hne]
    · by_cases hc' : c.user_id = u' ∧ c.year = y'
      · simp only [allocSeq, if_neg hc, counterVal, if_pos hc']
      · simp only [allocSeq, if_neg hc, counterVal, if_neg hc']
        exact ih

theorem allocRun_cons (cs : List Counter) (u : String) (y : Int)
    (reqs : List (String × Int)) :
    allocRun cs ((u, y) :: reqs) =
      ((allocSeq cs u y).1 :: (allocRun (allocSeq cs u y).2 reqs).1,
        (allocRun (allocSeq cs u y).2 reqs).2) := rfl

theorem resultsFor_cons (k : String × Int) (n : Nat) (reqs : List (String × Int))
    (outs : List Nat) (u : String) (y : Int) :
    resultsFor (k :: reqs) (n :: outs) u y =
      if k.1 = u ∧ k.2 = y then n :: resultsFor reqs outs u y
      else resultsFor reqs outs u y := by
  by_cases h : k.1 = u ∧ k.2 = y <;> simp [resultsFor, h]

theorem allocRun_resultsFor (reqs : List (String × Int)) (cs : List Counter)
    (u : String) (y : Int) :
    resultsFor reqs (allocRun cs reqs).1 u y =
      List.range' (counterVal cs u y + 1)
        (reqs.countP (fun k => k.1 = u ∧ k.2 = y)) := by
  induction reqs generalizing cs with
  | nil => simp [allocRun, resultsFor]
  | cons k reqs ih =>
    obtain ⟨u₀, y₀⟩ := k
    rw [allocRun_cons, resultsFor_cons, List.countP_cons, ih]
    by_cases h : u₀ = u ∧ y₀ = y
    · obtain ⟨rfl, rfl⟩ := h
      rw [if_pos ⟨rfl, rfl⟩, allocSeq_counterVal_self, allocSeq_fst]
      simp only [Nat.add_comm 1, decide_eq_true_eq, and_self, if_pos trivial]
      rw [List.range'_succ]
    · rw [if_neg h, allocSeq_counterVal_other cs u₀ y₀ u y
        (by rintro ⟨rfl, rfl⟩; exact h ⟨rfl, rfl⟩)]
      simp [h]

theorem counterVal_eq_zero_of_fresh (cs : List Counter) (u : String) (y : Int)
    (h : ∀ c ∈ cs, ¬(c.user_id = u ∧ c.year = y)) :
    counterVal cs u y = 0 := by
  induction cs with
  | nil => rfl
  | cons c cs ih =>
    have hc : ¬(c.user_id = u ∧ c.year = y) := h c (List.mem_cons_self c cs)
    simp only [counterVal, if_neg hc]
    exact ih (fun c' hc' => h c' (List.mem_cons_of_mem c hc'))

/-- **C1.** Sequence allocation is race-free and gapless from a fresh
counter: in any serialised history of `create_route_sheet` calls (each
`seq_number` coming from the single atomic increment-and-fetch `allocSeq`,
which creates the counter with value 1 when absent), the owner `u` / year
`y` calls receive exactly the integers `1, 2, …, n` in issuance order
(`n` the number of such calls) when no `(u, y)` counter existed initially,
and — from any starting store — no two calls for `(u, y)` ever receive the
same `seq_number`. -/
theorem c1_sequence_allocation (cs : List Counter) (reqs : List (String × Int))
    (u : String) (y : Int)
    (hfresh : ∀ c ∈ cs, ¬(c.user_id = u ∧ c.year = y)) :
    resultsFor reqs (allocRun cs reqs).1 u y =
      List.range' 1 (reqs.countP (fun k => k.1 = u ∧ k.2 = y)) ∧
    ∀ cs' : List Counter, (resultsFor reqs (allocRun cs' reqs).1 u y).Nodup := by
  constructor
  · rw [allocRun_resultsFor, counterVal_eq_zero_of_fresh cs u y hfresh]
  · intro cs'
    rw [allocRun_resultsFor]
    exact List.nodup_range' _ _

/-- Witness for C1: three creations by `"u"` in 2026 interleaved with one
by `"v"` receive exactly `[1, 2, 3]`. -/
theorem c1_sequence_allocation_witness :
    resultsFor [("u", 2026), ("u", 2026), ("v", 2026), ("u", 2026)]
        (allocRun [] [("u", 2026), ("u", 2026), ("v", 2026), ("u", 2026)]).1 "u" 2026 =
      List.range' 1
        (([("u", 2026), ("u", 2026), ("v", 2026), ("u", 2026)] : List (String × Int)).countP
          (fun k => k.1 = "u" ∧ k.2 = 2026)) ∧
    ∀ cs' : List Counter,
      (resultsFor [("u", 2026), ("u", 2026), ("v", 2026), ("u", 2026)]
        (allocRun cs' [("u", 2026), ("u", 2026), ("v", 2026), ("u", 2026)]).1 "u" 2026).Nodup :=
  c1_sequence_allocation [] [("u", 2026), ("u", 2026), ("v", 2026), ("u", 2026)] "u" 2026
    (by intro c hc; simp at hc)

/-! ## Route sheets and the retention engine

`RouteSheet` (models.py) carries two independent status axes:
`status ∈ {ACTIVE, ANNULLED}` (user-driven) and `user_visible : Bool`
(time-driven), plus `hide_at` / `purge_at` instants.  The retention pass
(duplicated in `internal_run_retention`, `admin_run_retention` and
`retention_job.run_retention_job`, with identical queries) is:

* hide: `update_many({hide_at: {$lte: now}, user_visible: true},
  {$set: {user_visible: false}})`;
* purge: `delete_many({purge_at: {$lte: now}})`.
-/

inductive Lifecycle where
  | ACTIVE
  | ANNULLED
  deriving Repr, DecidableEq

structure Sheet where
  id : String
  user_id : String
  year : Int
  seq_number : Nat
  status : Lifecycle
  annulled_at : Option Int
  annul_reason : Option String
  user_visible : Bool
  created_at : Int
  hide_at : Int
  purge_at : Int
  deriving Repr, DecidableEq

/-- The hide query `{"hide_at": {"$lte": now}, "user_visible": True}`. -/
def hideMatches (now : Int) (s : Sheet) : Bool :=
  decide (s.hide_at ≤ now) && s.user_visible

/-- The purge query `{"purge_at": {"$lte": now}}` — no condition on
`status` or `user_visible`. -/
def purgeMatches (now : Int) (s : Sheet) : Bool :=
  decide (s.purge_at ≤ now)

/-- Effect of the hide `update_many` on one document. -/
def hideStep (now : Int) (s : Sheet) : Sheet :=
  if hideMatches now s then { s with user_visible := false } else s

structure RunResult where
  sheets : List Sheet
  hidden_count : Nat
  purged_count : Nat
  deriving Repr, DecidableEq

/-- One non-dry retention pass: the bulk hide update (its
`modified_count` is the number of matching documents, each of which has
`user_visible` actually changed), then the bulk purge delete (its
`deleted_count` counts the post-hide documents matching the purge query;
`purge_at` is untouched by the hide).  The source guards each bulk write
behind `if to_hide > 0` / `if to_purge > 0`; skipping an empty bulk write
is identical to executing it. -/
def runRetention (now : Int) (sheets : List Sheet) : RunResult :=
  let afterHide := sheets.map (hideStep now)
  { sheets := afterHide.filter (fun s => !purgeMatches now s)
    hidden_count := sheets.countP (hideMatches now)
    purged_count := afterHide.countP (purgeMatches now) }

/-- The user listing `get_route_sheets` (server.py 1433-1495): base query
`{"user_id": uid, "user_visible": True}`. -/
def visibleSheets (sheets : List Sheet) (uid : String) : List Sheet :=
  sheets.filter (fun s => s.user_id = uid && s.user_visible)

theorem hideStep_purge_at (now : Int) (s : Sheet) :
    (hideStep now s).purge_at = s.purge_at := by
  unfold hideStep
  split <;> rfl

theorem purgeMatches_hideStep (now : Int) (s : Sheet) :
    purgeMatches now (hideStep now s) = purgeMatches now s := by
  simp [purgeMatches, hideStep_purge_at]

theorem hideMatches_hideStep (now : Int) (s : Sheet) :
    hideMatches now (hideStep now s) = false := by
  cases h : hideMatches now s with
  | true =>
    unfold hideStep
    rw [if_pos h]
    simp [hideMatches]
  | false => simp [hideStep, h]

theorem mem_runRetention (now : Int) (sheets : List Sheet) (t : Sheet) :
    t ∈ (runRetention now sheets).sheets ↔
      (∃ s ∈ sheets, hideStep now s = t) ∧ purgeMatches now t = false := by
  simp [runRetention, List.mem_filter, List.mem_map]

/-- **C5.** The hide transition is exact and pure: one non-dry retention
run turns each sheet with `hide_at ≤ now` and `user_visible = true` whose
`purge_at` has not elapsed into exactly `{s with user_visible := false}`
(lifecycle `status` and every other field untouched, record not deleted),
leaves every non-matching sheet completely unchanged, and the hidden
record is excluded from every user-visible listing. -/
theorem c5_hide_transition (now : Int) (sheets : List Sheet) (s : Sheet)
    (hs : s ∈ sheets) (hhide : s.hide_at ≤ now) (hvis : s.user_visible = true)
    (hpurge : now < s.purge_at) :
    { s with user_visible := false } ∈ (runRetention now sheets).sheets ∧
    (∀ t ∈ sheets, hideMatches now t = false → hideStep now t = t) ∧
    (∀ uid, { s with user_visible := false } ∉
      visibleSheets (runRetention now sheets).sheets uid) := by
  have hmatch : hideMatches now s = true := by
    simp [hideMatches, hhide, hvis]
  refine ⟨?_, ?_, ?_⟩
  · rw [mem_runRetention]
    refine ⟨⟨s, hs, ?_⟩, ?_⟩
    · simp [hideStep, hmatch]
    · simp [purgeMatches]
      omega
  · intro t _ ht
    simp [hideStep, ht]
  · intro uid hmem
    have := List.of_mem_filter hmem
    simp at this

/-- Witness for C5 at a concrete store. -/
theorem c5_hide_transition_witness :
    { (⟨"s1", "u", 2026, 1, Lifecycle.ACTIVE, none, none, true, 0, 5, 100⟩ : Sheet)
        with user_visible := false } ∈
      (runRetention 10 [⟨"s1", "u", 2026, 1, Lifecycle.ACTIVE, none, none, true, 0, 5, 100⟩]).sheets ∧
    (∀ t ∈ [(⟨"s1", "u", 2026, 1, Lifecycle.ACTIVE, none, none, true, 0, 5, 100⟩ : Sheet)],
      hideMatches 10 t = false → hideStep 10 t = t) ∧
    (∀ uid, { (⟨"s1", "u", 2026, 1, Lifecycle.ACTIVE, none, none, true, 0, 5, 100⟩ : Sheet)
        with user_visible := false } ∉
      visibleSheets
        (runRetention 10 [⟨"s1", "u", 2026, 1, Lifecycle.ACTIVE, none, none, true, 0, 5, 100⟩]).sheets
        uid) :=
  c5_hide_transition 10 [⟨"s1", "u", 2026, 1, Lifecycle.ACTIVE, none, none, true, 0, 5, 100⟩]
    ⟨"s1", "u", 2026, 1, Lifecycle.ACTIVE, none, none, true, 0, 5, 100⟩
    (List.mem_singleton.mpr rfl) (by decide) rfl (by decide)

/-- **C6.** Purge is unconditional on both status axes: after one non-dry
run every surviving sheet has `purge_at > now` (no condition on
`lifecycle_status` or visibility shields a record), and a sheet with
`purge_at ≤ now` is absent afterwards — both in its original form and in
the hidden form it would have taken in the same pass. -/
theorem c6_purge_unconditional (now : Int) (sheets : List Sheet) (s : Sheet)
    (_hs : s ∈ sheets) (hp : s.purge_at ≤ now) :
    (∀ t ∈ (runRetention now sheets).sheets, now < t.purge_at) ∧
    s ∉ (runRetention now sheets).sheets ∧
    { s with user_visible := false } ∉ (runRetention now sheets).sheets := by
  have hall : ∀ t ∈ (runRetention now sheets).sheets, now < t.purge_at := by
    intro t ht
    rw [mem_runRetention] at ht
    have := ht.2
    simp [purgeMatches] at this
    omega
  refine ⟨hall, ?_, ?_⟩
  · intro hmem
    have := hall s hmem
    omega
  · intro hmem
    have := hall _ hmem
    simp at this
    omega

/-- Witness for C6: an ANNULLED, already-hidden sheet is purged all the
same. -/
theorem c6_purge_unconditional_witness :
    (∀ t ∈ (runRetention 10
        [⟨"s2", "u", 2025, 3, Lifecycle.ANNULLED, some 1, some "err", false, 0, 2, 7⟩]).sheets,
      (10 : Int) < t.purge_at) ∧
    (⟨"s2", "u", 2025, 3, Lifecycle.ANNULLED, some 1, some "err", false, 0, 2, 7⟩ : Sheet) ∉
      (runRetention 10
        [⟨"s2", "u", 2025, 3, Lifecycle.ANNULLED, some 1, some "err", false, 0, 2, 7⟩]).sheets ∧
    { (⟨"s2", "u", 2025, 3, Lifecycle.ANNULLED, some 1, some "err", false, 0, 2, 7⟩ : Sheet)
        with user_visible := false } ∉
      (runRetention 10
        [⟨"s2", "u", 2025, 3, Lifecycle.ANNULLED, some 1, some "err", false, 0, 2, 7⟩]).sheets :=
  c6_purge_unconditional 10
    [⟨"s2", "u", 2025, 3, Lifecycle.ANNULLED, some 1, some "err", false, 0, 2, 7⟩]
    ⟨"s2", "u", 2025, 3, Lifecycle.ANNULLED, some 1, some "err", false, 0, 2, 7⟩
    (List.mem_singleton.mpr rfl) (by decide)

/-! ## The retention lock and the two retention entry points

`internal_run_retention` (server.py 2408-2535) acquires the singleton
`retention_locks` document through one atomic conditional
`find_one_and_update` with filter
`{"_id": "retention_job", "$or": [{"locked": False},
{"expires_at": {"$lt": now}}]}`, `upsert=True`, `ReturnDocument.AFTER`.
When the document is absent, or present with `locked == false` or an
expired `expires_at`, the filter matches (or the upsert inserts) and the
call returns the post-update document, whose `locked` is `true`.  When a
live (locked, unexpired) holder exists the filter matches nothing and
the upsert tries to insert a document whose `_id` is taken from the
filter's equality field `"retention_job"` — colliding with the existing
document and raising `DuplicateKeyError`.  That exception is raised
before the endpoint's `try` block, so it propagates unhandled (HTTP
500); the explicit `if not lock_result or not lock_result.get("locked")`
→ 409 branch is dead code, since a successful call always returns a
document with `locked: True`.  `admin_run_retention` (server.py
2287-2387) contains no lock operation at all.
-/

structure LockDoc where
  locked : Bool
  acquired_at : Int
  expires_at : Int
  deriving Repr, DecidableEq

/-- 5 minutes (`timedelta(minutes=5)`), in seconds. -/
def lockTtl : Int := 5 * 60

/-- The raised store-level exception. -/
inductive MongoErr where
  | duplicateKey
  deriving Repr, DecidableEq

/-- The atomic conditional acquire upsert: absent, unlocked or expired →
the post-update document (`locked := true`); a live holder → the filter
matches nothing and the upsert's insert collides on the singleton `_id`,
raising `DuplicateKeyError` with the store untouched. -/
def tryAcquire (lock : Option LockDoc) (now : Int) : Except MongoErr LockDoc :=
  match lock with
  | none => Except.ok ⟨true, now, now + lockTtl⟩
  | some l =>
    if l.locked = false ∨ l.expires_at < now then Except.ok ⟨true, now, now + lockTtl⟩
    else Except.error MongoErr.duplicateKey

/-- `update_one({"_id": "retention_job"}, {"$set": {"locked": False}})`. -/
def releaseLock (lock : Option LockDoc) : Option LockDoc :=
  lock.map (fun l => { l with locked := false })

/-- One `retention_runs` document (`duration_ms`, a wall-clock
measurement, is not modelled). -/
structure RunLog where
  run_at : Int
  hidden_count : Nat
  purged_count : Nat
  dry_run : Bool
  trigger : String
  stats_before_total : Nat
  stats_before_visible : Nat
  stats_after_total : Nat
  stats_after_visible : Nat
  deriving Repr, DecidableEq

structure RetentionState where
  lock : Option LockDoc
  sheets : List Sheet
  runLogs : List RunLog
  deriving Repr, DecidableEq

inductive RetErr where
  | alreadyRunning
  | internalError
  deriving Repr, DecidableEq

def mkRunLog (now : Int) (before after : List Sheet) (hidden purged : Nat)
    (trigger : String) : RunLog :=
  { run_at := now
    hidden_count := hidden
    purged_count := purged
    dry_run := false
    trigger := trigger
    stats_before_total := before.length
    stats_before_visible := before.countP (fun s => s.user_visible)
    stats_after_total := after.length
    stats_after_visible := after.countP (fun s => s.user_visible) }

/-- `internal_run_retention`: the conditional-acquire upsert runs first;
a `DuplicateKeyError` under contention propagates unhandled — an HTTP
500 with nothing mutated (the 409 "already running" check is kept below,
faithfully, but can never fire: an acquired document has
`locked = true`).  On acquisition the pass runs, the run log is
appended, and the `finally` block releases the lock. -/
def internalRunRetention (st : RetentionState) (now : Int) :
    Except RetErr (Nat × Nat) × RetentionState :=
  match tryAcquire st.lock now with
  | Except.error _ => (Except.error RetErr.internalError, st)
  | Except.ok l =>
    if !l.locked then (Except.error RetErr.alreadyRunning, { st with lock := some l })
    else
      let r := runRetention now st.sheets
      (Except.ok (r.hidden_count, r.purged_count),
        { lock := releaseLock (some l)
          sheets := r.sheets
          runLogs := st.runLogs ++
            [mkRunLog now st.sheets r.sheets r.hidden_count r.purged_count "internal"] })

/-- `admin_run_retention`: counts the would-be transitions, then — unless
`dry_run` — executes the same hide/purge pass and appends a run log.  No
lock is consulted or written at any point. -/
def adminRunRetention (st : RetentionState) (now : Int) (dryRun : Bool) :
    Except RetErr (Nat × Nat) × RetentionState :=
  let toHide := st.sheets.countP (hideMatches now)
  let toPurge := st.sheets.countP (purgeMatches now)
  if dryRun then
    (Except.ok (toHide, toPurge), st)
  else
    let r := runRetention now st.sheets
    (Except.ok (r.hidden_count, r.purged_count),
      { lock := st.lock
        sheets := r.sheets
        runLogs := st.runLogs ++
          [mkRunLog now st.sheets r.sheets r.hidden_count r.purged_count "admin_manual"] })

/-- **C4 counterexample.** The claim fails on the admin entry point: with
the lock held (and unexpired) by another run — so that the atomic
acquisition would fail (it raises a duplicate-key error) —
`admin_run_retention(dry_run=false)` still executes the retention
transitions (it hides an eligible sheet), because it never attempts to
acquire the `RetentionLock`. -/
theorem c4_lock_counterexample :
    tryAcquire (some ⟨true, 0, 100⟩) 10 = Except.error MongoErr.duplicateKey ∧
    (adminRunRetention
        ⟨some ⟨true, 0, 100⟩,
          [⟨"s1", "u", 2026, 1, Lifecycle.ACTIVE, none, none, true, 0, 5, 1000⟩], []⟩
        10 false).2.sheets ≠
      [⟨"s1", "u", 2026, 1, Lifecycle.ACTIVE, none, none, true, 0, 5, 1000⟩] := by
  constructor
  · rfl
  · decide

/-- **C4 (amended).** Only the internal scheduler endpoint attempts to
acquire the RetentionLock, via the single atomic conditional upsert.
When a live (locked, unexpired) holder exists, the upsert's insert
collides on the singleton `_id` and raises `DuplicateKeyError`, which
propagates unhandled as an internal error (HTTP 500) — the run stops at
once with the state (lock, sheets, run log) completely unchanged, with
no retry and no blocking; the explicit 409 "job already running" branch
is dead code, because every successful acquisition returns a document
with `locked = true`.  The admin endpoint with `dry_run=false` executes
the retention transitions unconditionally, never reading or writing the
lock. -/
theorem c4_lock_scopes_amended (st : RetentionState) (now : Int) (l : LockDoc)
    (hheld : st.lock = some l) (hlocked : l.locked = true)
    (hunexp : now ≤ l.expires_at) :
    internalRunRetention st now = (Except.error RetErr.internalError, st) ∧
    (∀ (lock : Option LockDoc) (t : Int) (acq : LockDoc),
      tryAcquire lock t = Except.ok acq → acq.locked = true) ∧
    (adminRunRetention st now false).2.sheets = (runRetention now st.sheets).sheets ∧
    (adminRunRetention st now false).2.lock = st.lock := by
  refine ⟨?_, ?_, rfl, rfl⟩
  · have hacq : tryAcquire st.lock now = Except.error MongoErr.duplicateKey := by
      unfold tryAcquire
      rw [hheld]
      simp only []
      rw [if_neg]
      push_neg
      exact ⟨by simp [hlocked], by omega⟩
    unfold internalRunRetention
    rw [hacq]
  · intro lock t acq h
    cases lock with
    | none =>
      simp only [tryAcquire, Except.ok.injEq] at h
      rw [← h]
    | some l' =>
      simp only [tryAcquire] at h
      by_cases hc : l'.locked = false ∨ l'.expires_at < t
      · rw [if_pos hc] at h
        simp only [Except.ok.injEq] at h
        rw [← h]
      · rw [if_neg hc] at h
        cases h

/-- Witness for the amended C4 at a concrete held lock. -/
theorem c4_lock_scopes_amended_witness :
    internalRunRetention
        ⟨some ⟨true, 0, 100⟩,
          [⟨"s1", "u", 2026, 1, Lifecycle.ACTIVE, none, none, true, 0, 5, 1000⟩], []⟩ 10 =
      (Except.error RetErr.internalError,
        ⟨some ⟨true, 0, 100⟩,
          [⟨"s1", "u", 2026, 1, Lifecycle.ACTIVE, none, none, true, 0, 5, 1000⟩], []⟩) ∧
    (∀ (lock : Option LockDoc) (t : Int) (acq : LockDoc),
      tryAcquire lock t = Except.ok acq → acq.locked = true) ∧
    (adminRunRetention
        ⟨some ⟨true, 0, 100⟩,
          [⟨"s1", "u", 2026, 1, Lifecycle.ACTIVE, none, none, true, 0, 5, 1000⟩], []⟩
        10 false).2.sheets =
      (runRetention 10
        [⟨"s1", "u", 2026, 1, Lifecycle.ACTIVE, none, none, true, 0, 5, 1000⟩]).sheets ∧
    (adminRunRetention
        ⟨some ⟨true, 0, 100⟩,
          [⟨"s1", "u", 2026, 1, Lifecycle.ACTIVE, none, none, true, 0, 5, 1000⟩], []⟩
        10 false).2.lock =
      some ⟨true, 0, 100⟩ :=
  c4_lock_scopes_amended
    ⟨some ⟨true, 0, 100⟩,
      [⟨"s1", "u", 2026, 1, Lifecycle.ACTIVE, none, none, true, 0, 5, 1000⟩], []⟩
    10 ⟨true, 0, 100⟩ rfl rfl (by decide)

/-- **C7.** Retention is idempotent: a second non-dry run at the same
instant, with no intervening mutations, reports `hidden_count = 0` and
`purged_count = 0` — the first run falsified both triggering predicates
for every transitioned record. -/
theorem c7_retention_idempotent (now : Int) (sheets : List Sheet) :
    (runRetention now (runRetention now sheets).sheets).hidden_count = 0 ∧
    (runRetention now (runRetention now sheets).sheets).purged_count = 0 := by
  have hmem : ∀ t ∈ (runRetention now sheets).sheets,
      hideMatches now t = false ∧ purgeMatches now t = false := by
    intro t ht
    rw [mem_runRetention] at ht
    obtain ⟨⟨s, _, rfl⟩, hp⟩ := ht
    exact ⟨hideMatches_hideStep now s, hp⟩
  have h1 : (runRetention now (runRetention now sheets).sheets).hidden_count =
      (runRetention now sheets).sheets.countP (hideMatches now) := rfl
  have h2 : (runRetention now (runRetention now sheets).sheets).purged_count =
      ((runRetention now sheets).sheets.map (hideStep now)).countP (purgeMatches now) := rfl
  constructor
  · rw [h1, List.countP_eq_zero]
    intro t ht
    simp [(hmem t ht).1]
  · rw [h2, List.countP_eq_zero]
    intro t ht
    rw [List.mem_map] at ht
    obtain ⟨s, hs, rfl⟩ := ht
    simp [purgeMatches_hideStep, (hmem s hs).2]

/-! ## The PDF cache (server.py 370-419), annulment (1512-1542) and the
PDF endpoint (1545-1628)

`pdf_cache` documents are keyed by `(sheet_id, config_version, status)`.
`get_cached_pdf` is a bare `find_one` on the triple — `expires_at` is
never part of the query (TTL removal is left to the store's sweep);
an entry with empty `pdf_bytes` is treated as a miss (`cache.get(...)`
truthiness).  `cache_pdf` is an upsert of the full document with
`expires_at = now + PDF_CACHE_DAYS`.  `invalidate_pdf_cache(sid, status)`
is `delete_many` on `{"sheet_id": sid}` plus `{"status": status}` when
given.
-/

structure CacheEntry where
  sheet_id : String
  config_version : Nat
  status : Lifecycle
  pdf_bytes : List Nat
  created_at : Int
  expires_at : Int
  deriving Repr, DecidableEq

def keyMatches (sid : String) (v : Nat) (st : Lifecycle) (e : CacheEntry) : Bool :=
  decide (e.sheet_id = sid) && decide (e.config_version = v) && decide (e.status = st)

/-- `get_cached_pdf`: `find_one` on the key triple; empty `pdf_bytes` is
falsy, so such an entry is reported as a miss.  `expires_at` plays no
role. -/
def getCachedPdf (cache : List CacheEntry) (sid : String) (v : Nat) (st : Lifecycle) :
    Option (List Nat) :=
  match cache.find? (keyMatches sid v st) with
  | some e => if e.pdf_bytes.isEmpty then none else some e.pdf_bytes
  | none => none

/-- `PDF_CACHE_DAYS = 7`, in seconds. -/
def pdfCacheTtl : Int := 7 * 24 * 60 * 60

/-- `cache_pdf`: `update_one` on the key triple with `$set` of the whole
document, `upsert=True` — the first matching entry is replaced, otherwise
a new entry is inserted. -/
def cachePdf : List CacheEntry → String → Nat → Lifecycle → List Nat → Int → List CacheEntry
  | [], sid, v, st, b, now => [⟨sid, v, st, b, now, now + pdfCacheTtl⟩]
  | e :: es, sid, v, st, b, now =>
    if keyMatches sid v st e then ⟨sid, v, st, b, now, now + pdfCacheTtl⟩ :: es
    else e :: cachePdf es sid v st b now

/-- `invalidate_pdf_cache`: `delete_many({"sheet_id": sid})`, restricted
to one `status` when given. -/
def invalidatePdfCache (cache : List CacheEntry) (sid : String) (status : Option Lifecycle) :
    List CacheEntry :=
  cache.filter (fun e =>
    !(decide (e.sheet_id = sid) &&
      (match status with
       | some st => decide (e.status = st)
       | none => true)))

inductive AnnulErr where
  | notFound
  | alreadyAnnulled
  deriving Repr, DecidableEq

/-- The `$set` applied by `annul_route_sheet`. -/
def annulUpdate (now : Int) (reason : Option String) (s : Sheet) : Sheet :=
  { s with status := Lifecycle.ANNULLED, annulled_at := some now, annul_reason := reason }

/-- `update_one({"id": sheet_id}, ...)`: first `id` match updated. -/
def setAnnulled : List Sheet → String → Int → Option String → List Sheet
  | [], _, _, _ => []
  | s :: ss, sid, now, reason =>
    if s.id = sid then annulUpdate now reason s :: ss
    else s :: setAnnulled ss sid now reason

/-- `annul_route_sheet`: find by `{"id": sid, "user_id": uid}`; 404 when
absent, 400 when already ANNULLED; otherwise flip the status and
invalidate only the ACTIVE cache slot of that sheet. -/
def annulRouteSheet (sheets : List Sheet) (cache : List CacheEntry)
    (sid uid : String) (reason : Option String) (now : Int) :
    Except AnnulErr (List Sheet × List CacheEntry) :=
  match sheets.find? (fun t => decide (t.id = sid) && decide (t.user_id = uid)) with
  | none => Except.error AnnulErr.notFound
  | some s =>
    if s.status = Lifecycle.ANNULLED then Except.error AnnulErr.alreadyAnnulled
    else
      Except.ok (setAnnulled sheets sid now reason,
        invalidatePdfCache cache sid (some Lifecycle.ACTIVE))

inductive PdfErr where
  | rateLimited
  | notFound
  deriving Repr, DecidableEq

/-- `get_route_sheet_pdf`: rate-limit gate (`rateAllowed` is the outcome
of `check_pdf_rate_limit`; the rate store itself never touches the
cache), lookup of the visible sheet, then cache probe under the sheet's
current status; on a miss the renderer output is cached under that
status.  Result: `(bytes, X-Cache hit?, cache store after the call)`. -/
def pdfRequest (rateAllowed : Bool) (sheets : List Sheet) (cache : List CacheEntry)
    (sid uid : String) (v : Nat) (rendered : List Nat) (now : Int) :
    Except PdfErr (List Nat × Bool × List CacheEntry) :=
  if !rateAllowed then Except.error PdfErr.rateLimited
  else
    match sheets.find? (fun t =>
        decide (t.id = sid) && decide (t.user_id = uid) && t.user_visible) with
    | none => Except.error PdfErr.notFound
    | some s =>
      match getCachedPdf cache sid v s.status with
      | some b => Except.ok (b, true, cache)
      | none => Except.ok (rendered, false, cachePdf cache sid v s.status rendered now)

theorem find?_eq_of_unique {α : Type} (p : α → Bool) (l : List α) (a : α)
    (ha : a ∈ l) (hpa : p a = true) (huniq : ∀ x ∈ l, p x = true → x = a) :
    l.find? p = some a := by
  induction l with
  | nil => cases ha
  | cons x xs ih =>
    by_cases hx : p x = true
    · rw [List.find?_cons_of_pos _ hx, huniq x (List.mem_cons_self x xs) hx]
    · rw [List.find?_cons_of_neg _ hx]
      rcases List.mem_cons.mp ha with rfl | ha'
      · exact absurd hpa hx
      · exact ih ha' (fun x hx' hpx => huniq x (List.mem_cons_of_mem _ hx') hpx)

theorem mem_invalidatePdfCache (cache : List CacheEntry) (sid : String)
    (st : Lifecycle) (e : CacheEntry) :
    e ∈ invalidatePdfCache cache sid (some st) ↔
      e ∈ cache ∧ ¬(e.sheet_id = sid ∧ e.status = st) := by
  simp [invalidatePdfCache, List.mem_filter]
  tauto

theorem getCachedPdf_cachePdf (cache : List CacheEntry) (sid : String) (v : Nat)
    (st : Lifecycle) (b : List Nat) (now : Int) (hb : b ≠ []) :
    getCachedPdf (cachePdf cache sid v st b now) sid v st = some b := by
  induction cache with
  | nil =>
    simp [cachePdf, getCachedPdf, List.find?, keyMatches, hb]
  | cons e es ih =>
    by_cases he : keyMatches sid v st e = true
    · unfold cachePdf
      rw [if_pos he]
      unfold getCachedPdf
      rw [List.find?_cons_of_pos _ (by simp [keyMatches])]
      simp [hb]
    · unfold cachePdf
      rw [if_neg he]
      unfold getCachedPdf
      rw [List.find?_cons_of_neg _ he]
      exact ih

theorem getCachedPdf_eq_none (cache : List CacheEntry) (sid : String) (v : Nat)
    (st : Lifecycle) (h : ∀ e ∈ cache, keyMatches sid v st e = false) :
    getCachedPdf cache sid v st = none := by
  unfold getCachedPdf
  rw [List.find?_eq_none.mpr (fun e he => by simp [h e he])]

theorem setAnnulled_find (sheets : List Sheet) (s : Sheet) (sid uid : String)
    (reason : Option String) (now : Int)
    (hs : s ∈ sheets) (hid : s.id = sid) (huid : s.user_id = uid)
    (hvis : s.user_visible = true)
    (hunique : ∀ t ∈ sheets, t.id = sid → t = s) :
    (setAnnulled sheets sid now reason).find? (fun t =>
        decide (t.id = sid) && decide (t.user_id = uid) && t.user_visible) =
      some (annulUpdate now reason s) := by
  induction sheets with
  | nil => cases hs
  | cons t ts ih =>
    by_cases ht : t.id = sid
    · have : t = s := hunique t (List.mem_cons_self t ts) ht
      subst this
      unfold setAnnulled
      rw [if_pos ht]
      exact List.find?_cons_of_pos _ (by simp [annulUpdate, hid, huid, hvis])
    · unfold setAnnulled
      rw [if_neg ht]
      rw [List.find?_cons_of_neg _ (by simp [ht])]
      have hs' : s ∈ ts := by
        rcases List.mem_cons.mp hs with rfl | h
        · exact absurd hid ht
        · exact h
      exact ih hs' (fun x hx hxid => hunique x (List.mem_cons_of_mem _ hx) hxid)

/-- **C8.** Annulment invalidates exactly the ACTIVE cache slot:
`annul_route_sheet` deletes precisely the cache entries of that sheet
with status ACTIVE (ANNULLED entries of the same sheet and entries of
every other sheet survive verbatim); the next PDF request for the
now-ANNULLED sheet misses the cache and stores the freshly rendered
bytes under the ANNULLED slot, and a subsequent request for the same
sheet is a cache hit serving those bytes. -/
theorem c8_annul_invalidates_active (sheets : List Sheet) (cache : List CacheEntry)
    (s : Sheet) (sid uid : String) (reason : Option String) (now now₂ : Int)
    (v : Nat) (rendered rendered₂ : List Nat)
    (hs : s ∈ sheets) (hid : s.id = sid) (huid : s.user_id = uid)
    (hunique : ∀ t ∈ sheets, t.id = sid → t = s)
    (hact : s.status = Lifecycle.ACTIVE)
    (hvis : s.user_visible = true)
    (hcache : ∀ e ∈ cache, e.sheet_id = sid → e.status = Lifecycle.ACTIVE)
    (hr : rendered ≠ []) :
    ∃ sheets' cache',
      annulRouteSheet sheets cache sid uid reason now = Except.ok (sheets', cache') ∧
      (∀ e, e ∈ cache' ↔ e ∈ cache ∧ ¬(e.sheet_id = sid ∧ e.status = Lifecycle.ACTIVE)) ∧
      pdfRequest true sheets' cache' sid uid v rendered now =
        Except.ok (rendered, false, cachePdf cache' sid v Lifecycle.ANNULLED rendered now) ∧
      pdfRequest true sheets' (cachePdf cache' sid v Lifecycle.ANNULLED rendered now)
          sid uid v rendered₂ now₂ =
        Except.ok (rendered, true, cachePdf cache' sid v Lifecycle.ANNULLED rendered now) := by
  have hfind : sheets.find? (fun t => decide (t.id = sid) && decide (t.user_id = uid)) =
      some s := by
    apply find?_eq_of_unique _ _ s hs (by simp [hid, huid])
    intro x hx hpx
    simp only [Bool.and_eq_true, decide_eq_true_eq] at hpx
    exact hunique x hx hpx.1
  refine ⟨setAnnulled sheets sid now reason,
    invalidatePdfCache cache sid (some Lifecycle.ACTIVE), ?_, ?_, ?_, ?_⟩
  · unfold annulRouteSheet
    rw [hfind]
    simp [hact]
  · intro e
    exact mem_invalidatePdfCache cache sid Lifecycle.ACTIVE e
  · have hfind' := setAnnulled_find sheets s sid uid reason now hs hid huid hvis hunique
    have hnone : getCachedPdf (invalidatePdfCache cache sid (some Lifecycle.ACTIVE))
        sid v Lifecycle.ANNULLED = none := by
      apply getCachedPdf_eq_none
      intro e he
      rw [mem_invalidatePdfCache] at he
      by_contra hkey
      rw [Bool.not_eq_false] at hkey
      simp only [keyMatches, Bool.and_eq_true, decide_eq_true_eq] at hkey
      have := hcache e he.1 hkey.1.1
      rw [this] at hkey
      exact absurd hkey.2 (by decide)
    unfold pdfRequest
    rw [hfind']
    simp only [Bool.not_true, if_neg (by decide : ¬((false : Bool) = true))]
    have hst : (annulUpdate now reason s).status = Lifecycle.ANNULLED := rfl
    rw [hst, hnone]
  · have hfind' := setAnnulled_find sheets s sid uid reason now hs hid huid hvis hunique
    unfold pdfRequest
    rw [hfind']
    simp only [Bool.not_true, if_neg (by decide : ¬((false : Bool) = true))]
    have hst : (annulUpdate now reason s).status = Lifecycle.ANNULLED := rfl
    rw [hst, getCachedPdf_cachePdf _ _ _ _ _ _ hr]

/-- Concrete sheet for the C8 witness. -/
def c8Sheet : Sheet :=
  ⟨"s1", "u", 2026, 1, Lifecycle.ACTIVE, none, none, true, 0, 500, 1000⟩

/-- Concrete cache for the C8 witness: an ACTIVE entry for the sheet and
an ACTIVE entry for an unrelated sheet. -/
def c8Cache : List CacheEntry :=
  [⟨"s1", 3, Lifecycle.ACTIVE, [1, 2], 0, 99⟩,
   ⟨"s2", 3, Lifecycle.ACTIVE, [9], 0, 99⟩]

/-- Witness for C8 at the concrete store. -/
theorem c8_annul_invalidates_active_witness :
    ∃ sheets' cache',
      annulRouteSheet [c8Sheet] c8Cache "s1" "u" (some "dup") 10 =
        Except.ok (sheets', cache') ∧
      (∀ e, e ∈ cache' ↔ e ∈ c8Cache ∧ ¬(e.sheet_id = "s1" ∧ e.status = Lifecycle.ACTIVE)) ∧
      pdfRequest true sheets' cache' "s1" "u" 3 [7, 7] 10 =
        Except.ok ([7, 7], false, cachePdf cache' "s1" 3 Lifecycle.ANNULLED [7, 7] 10) ∧
      pdfRequest true sheets' (cachePdf cache' "s1" 3 Lifecycle.ANNULLED [7, 7] 10)
          "s1" "u" 3 [8] 20 =
        Except.ok ([7, 7], true, cachePdf cache' "s1" 3 Lifecycle.ANNULLED [7, 7] 10) :=
  c8_annul_invalidates_active [c8Sheet] c8Cache c8Sheet "s1" "u" (some "dup") 10 20
    3 [7, 7] [8] (by decide) rfl rfl (by decide) rfl rfl (by decide) (by decide)

/-- **C10.** The cache lookup never consults `expires_at`: an entry
matching the requested `(sheet_id, config_version, status)` triple with
non-empty bytes is served as a hit even when its `expires_at` already
lies in the past. -/
theorem c10_cache_serves_expired (cache : List CacheEntry) (e : CacheEntry)
    (sid : String) (v : Nat) (st : Lifecycle) (now : Int)
    (he : e ∈ cache)
    (hkey : e.sheet_id = sid ∧ e.config_version = v ∧ e.status = st)
    (huniq : ∀ x ∈ cache, keyMatches sid v st x = true → x = e)
    (hbytes : e.pdf_bytes ≠ [])
    (_hexpired : e.expires_at < now) :
    getCachedPdf cache sid v st = some e.pdf_bytes := by
  unfold getCachedPdf
  rw [find?_eq_of_unique _ _ e he (by simp [keyMatches, hkey.1, hkey.2.1, hkey.2.2]) huniq]
  simp [hbytes]

/-- Witness for C10: `now = 1000` is far past the entry's
`expires_at = 50`, yet the bytes are served. -/
theorem c10_cache_serves_expired_witness :
    getCachedPdf [⟨"s1", 2, Lifecycle.ACTIVE, [37, 80, 68, 70], 0, 50⟩] "s1" 2
      Lifecycle.ACTIVE = some [37, 80, 68, 70] :=
  c10_cache_serves_expired [⟨"s1", 2, Lifecycle.ACTIVE, [37, 80, 68, 70], 0, 50⟩]
    ⟨"s1", 2, Lifecycle.ACTIVE, [37, 80, 68, 70], 0, 50⟩ "s1" 2 Lifecycle.ACTIVE 1000
    (List.mem_singleton.mpr rfl) (by decide)
    (by intro x hx _; rw [List.mem_singleton.mp hx]) (by decide) (by decide)

/-! ## Session revocation

Cookie refresh (`refresh_tokens`, server.py 678-742) checks only the
`users` document: decode, `type == "refresh"`, user exists and is
APPROVED, and `payload.v >= user.token_version`; it then mints a new
refresh credential embedding the *current* `token_version`.  `logout`
(745-778) and `change_password` (1185-1246) perform one `$inc` of
`token_version`.  Mobile refresh (`mobile_refresh`, 929-1030) instead
claims the presented token's stored document through one atomic
`find_one_and_update` before any user-level check.
-/

structure User where
  id : String
  email : String
  status : String
  token_version : Nat
  password_hash : String
  must_change_password : Bool
  deriving Repr, DecidableEq

/-- A decoded refresh JWT payload: `sub`, `type`, and the embedded
`token_version` claim `v` (`payload.get("v", 0)`). -/
structure TokenPayload where
  sub : String
  type : String
  v : Nat
  deriving Repr, DecidableEq

inductive AuthErr where
  | noSession
  | invalidSession
  | userNotFound
  | notVerified
  | sessionRevoked
  | invalidToken
  deriving Repr, DecidableEq

/-- `refresh_tokens`: the cookie refresh decision.  `payload = none`
stands for a missing cookie or a token `decode_token` rejects.  On
success the rotated refresh credential embeds `current_version`.  Only
the `users` store is consulted — no token is enumerated or stored. -/
def refreshTokens (users : List User) (payload : Option TokenPayload) :
    Except AuthErr TokenPayload :=
  match payload with
  | none => Except.error AuthErr.invalidSession
  | some p =>
    if p.type ≠ "refresh" then Except.error AuthErr.invalidSession
    else
      match users.find? (fun x => decide (x.id = p.sub)) with
      | none => Except.error AuthErr.userNotFound
      | some u =>
        if u.status ≠ "APPROVED" then Except.error AuthErr.notVerified
        else if p.v < u.token_version then Except.error AuthErr.sessionRevoked
        else Except.ok ⟨u.id, "refresh", u.token_version⟩

/-- The credential issued to `u` at login (`create_refresh_token(user_id,
token_version)`): it embeds the stored version at issue time. -/
def issueRefresh (u : User) : TokenPayload :=
  ⟨u.id, "refresh", u.token_version⟩

/-- The `$set`/`$inc` update applied by `change_password`. -/
def changePasswordApply (u : User) (newHash : String) : User :=
  { u with
    password_hash := newHash
    must_change_password := false
    token_version := u.token_version + 1 }

/-- The `$inc` update applied by `logout`. -/
def logoutApply (u : User) : User :=
  { u with token_version := u.token_version + 1 }

/-- **C3.** Epoch revocation is total: cookie refresh succeeds only when
the embedded version reaches the stored `token_version`; `logout` and
`change_password` each perform a single increment of the stored version;
and afterwards every credential embedding a version `v ≤` the
pre-increment version — in particular any credential issued before the
increment — is rejected, with no token store enumerated (`refreshTokens`
reads only the user document). -/
theorem c3_epoch_revocation (u : User) (newHash : String) (v : Nat)
    (happ : u.status = "APPROVED") (hv : v ≤ u.token_version) :
    (∀ (users : List User) (q : TokenPayload) (w : User),
      users.find? (fun x => decide (x.id = q.sub)) = some w →
      (refreshTokens users (some q)).isOk → w.token_version ≤ q.v) ∧
    (changePasswordApply u newHash).token_version = u.token_version + 1 ∧
    (logoutApply u).token_version = u.token_version + 1 ∧
    refreshTokens [changePasswordApply u newHash] (some ⟨u.id, "refresh", v⟩) =
      Except.error AuthErr.sessionRevoked ∧
    refreshTokens [logoutApply u] (some ⟨u.id, "refresh", v⟩) =
      Except.error AuthErr.sessionRevoked := by
  refine ⟨?_, rfl, rfl, ?_, ?_⟩
  · intro users q w hfind hok
    simp only [refreshTokens] at hok
    by_cases htype : q.type = "refresh"
    · rw [if_neg (by simp [htype])] at hok
      rw [hfind] at hok
      simp only [] at hok
      by_cases hst : w.status = "APPROVED"
      · rw [if_neg (by simp [hst])] at hok
        by_cases hlt : q.v < w.token_version
        · rw [if_pos hlt] at hok
          simp [Except.isOk, Except.toBool] at hok
        · omega
      · rw [if_pos (by simp [hst])] at hok
        simp [Except.isOk, Except.toBool] at hok
    · rw [if_pos (by simp [htype])] at hok
      simp [Except.isOk, Except.toBool] at hok
  · simp only [refreshTokens]
    rw [if_neg (by simp)]
    rw [show List.find? (fun x => decide (x.id = (⟨u.id, "refresh", v⟩ : TokenPayload).sub))
        [changePasswordApply u newHash] = some (changePasswordApply u newHash) from
      List.find?_cons_of_pos _ (by simp [changePasswordApply])]
    simp only []
    rw [if_neg (by simp [changePasswordApply, happ])]
    rw [if_pos (by simp [changePasswordApply]; omega)]
  · simp only [refreshTokens]
    rw [if_neg (by simp)]
    rw [show List.find? (fun x => decide (x.id = (⟨u.id, "refresh", v⟩ : TokenPayload).sub))
        [logoutApply u] = some (logoutApply u) from
      List.find?_cons_of_pos _ (by simp [logoutApply])]
    simp only []
    rw [if_neg (by simp [logoutApply, happ])]
    rw [if_pos (by simp [logoutApply]; omega)]

/-- Witness for C3: a credential issued at version 4 is rejected once the
stored version is bumped to 5. -/
theorem c3_epoch_revocation_witness :
    (∀ (users : List User) (q : TokenPayload) (w : User),
      users.find? (fun x => decide (x.id = q.sub)) = some w →
      (refreshTokens users (some q)).isOk → w.token_version ≤ q.v) ∧
    (changePasswordApply ⟨"u1", "a@b.c", "APPROVED", 4, "h", false⟩ "h2").token_version =
      4 + 1 ∧
    (logoutApply ⟨"u1", "a@b.c", "APPROVED", 4, "h", false⟩).token_version = 4 + 1 ∧
    refreshTokens [changePasswordApply ⟨"u1", "a@b.c", "APPROVED", 4, "h", false⟩ "h2"]
        (some ⟨"u1", "refresh", 4⟩) =
      Except.error AuthErr.sessionRevoked ∧
    refreshTokens [logoutApply ⟨"u1", "a@b.c", "APPROVED", 4, "h", false⟩]
        (some ⟨"u1", "refresh", 4⟩) =
      Except.error AuthErr.sessionRevoked :=
  c3_epoch_revocation ⟨"u1", "a@b.c", "APPROVED", 4, "h", false⟩ "h2" 4 rfl
    (by decide)

/-! ### Mobile refresh — one-time rotation (`mobile_refresh`, 929-1030)

The order of operations in the source: atomic claim of the stored token
document (`find_one_and_update` on
`{token_hash, revoked: false, replaced_by_jti: None}` setting
`revoked: true`, `ReturnDocument.BEFORE`), then the user-exists check,
the APPROVED check, the `token_version` check, then `insert_one` of the
new token document and `update_one({"jti": jti})` setting
`replaced_by_jti`.  Every DB write is one atomic step, so concurrent
calls serialise into successive applications of these functions.
-/

structure MobileToken where
  jti : String
  user_id : String
  token_hash : String
  token_version : Nat
  created_at : Int
  expires_at : Int
  revoked : Bool
  replaced_by_jti : Option String
  deriving Repr, DecidableEq

/-- The claim filter: `token_hash` matches, not revoked, not already
rotated. -/
def claimMatches (h : String) (d : MobileToken) : Bool :=
  decide (d.token_hash = h) && !d.revoked && decide (d.replaced_by_jti = none)

/-- The atomic `find_one_and_update` claim: the first matching document
is returned (pre-update image) with `revoked` set to `true` in the store;
no match returns `none` and leaves the store untouched. -/
def claimToken : List MobileToken → String → Option MobileToken × List MobileToken
  | [], _ => (none, [])
  | d :: ds, h =>
    if claimMatches h d then (some d, { d with revoked := true } :: ds)
    else
      let r := claimToken ds h
      (r.1, d :: r.2)

/-- `update_one({"jti": jti}, {"$set": {"replaced_by_jti": newJti}})`. -/
def setReplacedBy : List MobileToken → String → String → List MobileToken
  | [], _, _ => []
  | d :: ds, jti, newJti =>
    if d.jti = jti then { d with replaced_by_jti := some newJti } :: ds
    else d :: setReplacedBy ds jti newJti

/-- A successfully decoded, well-formed `mobile_refresh` payload: its
`jti`, `sub`, embedded version `v`, and `hash_token` of the raw token.
(A request failing decode, the `type == "mobile_refresh"` check, or the
jti/sub presence checks is rejected before any store access with the
same generic 401, touching nothing.) -/
structure MobilePresented where
  jti : String
  sub : String
  v : Nat
  hash : String
  deriving Repr, DecidableEq

/-- `mobile_refresh`: atomic claim first, then the user checks, then the
mint (`insert_one` of the fresh credential with `newJti`/`newHash` from
`create_mobile_refresh_token`) and the `replaced_by_jti` back-pointer.
The second component is the token store after the call — changes made
before a failing check persist, exactly as in the endpoint. -/
def mobileRefresh (users : List User) (ts : List MobileToken) (p : MobilePresented)
    (newJti newHash : String) (now expiry : Int) :
    Except AuthErr MobileToken × List MobileToken :=
  match claimToken ts p.hash with
  | (none, ts₁) => (Except.error AuthErr.invalidToken, ts₁)
  | (some _, ts₁) =>
    match users.find? (fun x => decide (x.id = p.sub)) with
    | none => (Except.error AuthErr.userNotFound, ts₁)
    | some u =>
      if u.status ≠ "APPROVED" then (Except.error AuthErr.notVerified, ts₁)
      else if p.v < u.token_version then (Except.error AuthErr.sessionRevoked, ts₁)
      else
        let newDoc : MobileToken :=
          ⟨newJti, u.id, newHash, u.token_version, now, expiry, false, none⟩
        (Except.ok newDoc, setReplacedBy (ts₁ ++ [newDoc]) p.jti newJti)

theorem claimToken_of_none (ts : List MobileToken) (h : String)
    (hall : ∀ x ∈ ts, claimMatches h x = false) :
    claimToken ts h = (none, ts) := by
  induction ts with
  | nil => rfl
  | cons d ds ih =>
    unfold claimToken
    rw [if_neg (by simp [hall d (List.mem_cons_self d ds)])]
    rw [ih (fun x hx => hall x (List.mem_cons_of_mem d hx))]

theorem claimMatches_revoked (h : String) (d : MobileToken) :
    claimMatches h { d with revoked := true } = false := by
  simp [claimMatches]

theorem claimToken_consumes (ts : List MobileToken) (h : String) (d : MobileToken)
    (ts' : List MobileToken)
    (hcount : ts.countP (fun x => decide (x.token_hash = h)) ≤ 1)
    (hclaim : claimToken ts h = (some d, ts')) :
    ∀ x ∈ ts', claimMatches h x = false := by
  induction ts generalizing d ts' with
  | nil => cases hclaim
  | cons a as ih =>
    by_cases ha : claimMatches h a = true
    · unfold claimToken at hclaim
      rw [if_pos ha, Prod.mk.injEq] at hclaim
      obtain ⟨_, hts⟩ := hclaim
      subst hts
      intro x hx
      rcases List.mem_cons.mp hx with rfl | hx'
      · exact claimMatches_revoked h a
      · have hhash : a.token_hash = h := by
          by_contra hne
          simp [claimMatches, hne] at ha
        have hzero : as.countP (fun x => decide (x.token_hash = h)) = 0 := by
          rw [List.countP_cons,
            if_pos (show decide (a.token_hash = h) = true by simp [hhash])] at hcount
          omega
        have hxh : ¬(x.token_hash = h) := by
          have := List.countP_eq_zero.mp hzero x hx'
          simpa using this
        simp [claimMatches, hxh]
    · unfold claimToken at hclaim
      rw [if_neg ha] at hclaim
      simp only [Prod.mk.injEq] at hclaim
      obtain ⟨h1, hts⟩ := hclaim
      subst hts
      have hcount' : as.countP (fun x => decide (x.token_hash = h)) ≤ 1 := by
        rw [List.countP_cons] at hcount
        omega
      intro x hx
      rcases List.mem_cons.mp hx with rfl | hx'
      · simpa using ha
      · exact ih d (claimToken as h).2 hcount'
          (by rw [Prod.ext_iff]; exact ⟨h1, rfl⟩) x hx'

theorem mem_setReplacedBy (ts : List MobileToken) (jti newJti : String)
    (x : MobileToken) (hx : x ∈ setReplacedBy ts jti newJti) :
    x ∈ ts ∨ ∃ y ∈ ts, x = { y with replaced_by_jti := some newJti } := by
  induction ts with
  | nil => cases hx
  | cons a as ih =>
    unfold setReplacedBy at hx
    by_cases ha : a.jti = jti
    · rw [if_pos ha] at hx
      rcases List.mem_cons.mp hx with rfl | hx'
      · exact Or.inr ⟨a, List.mem_cons_self a as, rfl⟩
      · exact Or.inl (List.mem_cons_of_mem a hx')
    · rw [if_neg ha] at hx
      rcases List.mem_cons.mp hx with rfl | hx'
      · exact Or.inl (List.mem_cons_self x as)
      · rcases ih hx' with h | ⟨y, hy, rfl⟩
        · exact Or.inl (List.mem_cons_of_mem a h)
        · exact Or.inr ⟨y, List.mem_cons_of_mem a hy, rfl⟩

theorem claimMatches_replacedBy (h newJti : String) (y : MobileToken) :
    claimMatches h { y with replaced_by_jti := some newJti } = false := by
  simp [claimMatches]

/-- After a successful claim and mint, every document in the store fails
the claim filter for the presented hash (provided the minted hash is
fresh). -/
theorem post_rotation_unclaimable (ts : List MobileToken) (p : MobilePresented)
    (d : MobileToken) (ts₁ : List MobileToken) (newJti newHash : String)
    (uid : String) (ver : Nat) (now expiry : Int)
    (hcount : ts.countP (fun x => decide (x.token_hash = p.hash)) ≤ 1)
    (hclaim : claimToken ts p.hash = (some d, ts₁))
    (hfresh : newHash ≠ p.hash) :
    ∀ x ∈ setReplacedBy
        (ts₁ ++ [(⟨newJti, uid, newHash, ver, now, expiry, false, none⟩ : MobileToken)])
        p.jti newJti,
      claimMatches p.hash x = false := by
  intro x hx
  rcases mem_setReplacedBy _ _ _ _ hx with hmem | ⟨y, hy, rfl⟩
  · rcases List.mem_append.mp hmem with h1 | h2
    · exact claimToken_consumes ts p.hash d ts₁ hcount hclaim x h1
    · rw [List.mem_singleton.mp h2]
      simp [claimMatches, hfresh]
  · exact claimMatches_replacedBy _ _ _

/-- **C2.** A mobile refresh credential is usable at most once: a call
that claims the stored token (the atomic find-and-update on `token_hash`
with `revoked = false` and no replacement, setting `revoked = true`)
rotates it, and any later call presenting the same token — concurrent
calls serialise into exactly this succession, the claim being one atomic
store operation — fails with the generic invalid-token error and leaves
the token store exactly as it was: no new credential is minted. -/
theorem c2_mobile_single_use (users : List User) (ts : List MobileToken)
    (p : MobilePresented) (u : User) (d : MobileToken) (ts₁ : List MobileToken)
    (newJti newHash newJti₂ newHash₂ : String) (now expiry now₂ expiry₂ : Int)
    (hcount : ts.countP (fun x => decide (x.token_hash = p.hash)) ≤ 1)
    (hclaim : claimToken ts p.hash = (some d, ts₁))
    (huser : users.find? (fun x => decide (x.id = p.sub)) = some u)
    (happ : u.status = "APPROVED")
    (hv : ¬(p.v < u.token_version))
    (hfresh : newHash ≠ p.hash) :
    mobileRefresh users ts p newJti newHash now expiry =
      (Except.ok
        (⟨newJti, u.id, newHash, u.token_version, now, expiry, false, none⟩ : MobileToken),
        setReplacedBy
          (ts₁ ++ [⟨newJti, u.id, newHash, u.token_version, now, expiry, false, none⟩])
          p.jti newJti) ∧
    mobileRefresh users
        (setReplacedBy
          (ts₁ ++ [⟨newJti, u.id, newHash, u.token_version, now, expiry, false, none⟩])
          p.jti newJti)
        p newJti₂ newHash₂ now₂ expiry₂ =
      (Except.error AuthErr.invalidToken,
        setReplacedBy
          (ts₁ ++ [⟨newJti, u.id, newHash, u.token_version, now, expiry, false, none⟩])
          p.jti newJti) := by
  constructor
  · unfold mobileRefresh
    rw [hclaim]
    simp only []
    rw [huser]
    simp only []
    rw [if_neg (by simp [happ]), if_neg hv]
  · have hall := post_rotation_unclaimable ts p d ts₁ newJti newHash u.id
      u.token_version now expiry hcount hclaim hfresh
    unfold mobileRefresh
    rw [claimToken_of_none _ _ hall]

/-- Witness for C2 at a concrete store: token `"H1"` of user `"u1"`
rotates once; the replay fails and mints nothing. -/
theorem c2_mobile_single_use_witness :
    mobileRefresh [⟨"u1", "a@b.c", "APPROVED", 2, "h", false⟩]
        [⟨"j1", "u1", "H1", 2, 0, 100, false, none⟩]
        ⟨"j1", "u1", 2, "H1"⟩ "j2" "H2" 5 105 =
      (Except.ok (⟨"j2", "u1", "H2", 2, 5, 105, false, none⟩ : MobileToken),
        setReplacedBy
          ([⟨"j1", "u1", "H1", 2, 0, 100, true, none⟩] ++
            [⟨"j2", "u1", "H2", 2, 5, 105, false, none⟩]) "j1" "j2") ∧
    mobileRefresh [⟨"u1", "a@b.c", "APPROVED", 2, "h", false⟩]
        (setReplacedBy
          ([⟨"j1", "u1", "H1", 2, 0, 100, true, none⟩] ++
            [⟨"j2", "u1", "H2", 2, 5, 105, false, none⟩]) "j1" "j2")
        ⟨"j1", "u1", 2, "H1"⟩ "j3" "H3" 6 106 =
      (Except.error AuthErr.invalidToken,
        setReplacedBy
          ([⟨"j1", "u1", "H1", 2, 0, 100, true, none⟩] ++
            [⟨"j2", "u1", "H2", 2, 5, 105, false, none⟩]) "j1" "j2") :=
  c2_mobile_single_use [⟨"u1", "a@b.c", "APPROVED", 2, "h", false⟩]
    [⟨"j1", "u1", "H1", 2, 0, 100, false, none⟩] ⟨"j1", "u1", 2, "H1"⟩
    ⟨"u1", "a@b.c", "APPROVED", 2, "h", false⟩
    ⟨"j1", "u1", "H1", 2, 0, 100, false, none⟩
    [⟨"j1", "u1", "H1", 2, 0, 100, true, none⟩]
    "j2" "H2" "j3" "H3" 5 105 6 106
    (by decide) (by decide) rfl rfl (by decide) (by decide)

/-- **C9.** The mobile refresh endpoint consumes the presented token even
when the refresh ultimately fails: the atomic claim runs before the
user-exists / user-approved / token-version checks, so when any of those
checks rejects the request the endpoint returns an error distinct from
the invalid-token one while the store already holds the token as revoked
— the caller cannot retry with the same token (the retry hits the
generic invalid-token error with the store unchanged). -/
theorem c9_mobile_refresh_consumes_on_failure (users : List User)
    (ts : List MobileToken) (p : MobilePresented) (d : MobileToken)
    (ts₁ : List MobileToken) (newJti newHash newJti₂ newHash₂ : String)
    (now expiry now₂ expiry₂ : Int)
    (hcount : ts.countP (fun x => decide (x.token_hash = p.hash)) ≤ 1)
    (hclaim : claimToken ts p.hash = (some d, ts₁))
    (hfail : users.find? (fun x => decide (x.id = p.sub)) = none ∨
      ∃ u, users.find? (fun x => decide (x.id = p.sub)) = some u ∧
        (u.status ≠ "APPROVED" ∨ p.v < u.token_version)) :
    (∃ e, e ≠ AuthErr.invalidToken ∧
      mobileRefresh users ts p newJti newHash now expiry = (Except.error e, ts₁)) ∧
    (∀ x ∈ ts₁, claimMatches p.hash x = false) ∧
    mobileRefresh users ts₁ p newJti₂ newHash₂ now₂ expiry₂ =
      (Except.error AuthErr.invalidToken, ts₁) := by
  have hcons := claimToken_consumes ts p.hash d ts₁ hcount hclaim
  refine ⟨?_, hcons, ?_⟩
  · rcases hfail with hnone | ⟨u, hu, hbad⟩
    · refine ⟨AuthErr.userNotFound, by decide, ?_⟩
      unfold mobileRefresh
      rw [hclaim]
      simp only []
      rw [hnone]
    · by_cases hst : u.status = "APPROVED"
      · have hver : p.v < u.token_version := by
          rcases hbad with hst' | hver
          · exact absurd hst hst'
          · exact hver
        refine ⟨AuthErr.sessionRevoked, by decide, ?_⟩
        unfold mobileRefresh
        rw [hclaim]
        simp only []
        rw [hu]
        simp only []
        rw [if_neg (by simp [hst]), if_pos hver]
      · refine ⟨AuthErr.notVerified, by decide, ?_⟩
        unfold mobileRefresh
        rw [hclaim]
        simp only []
        rw [hu]
        simp only []
        rw [if_pos (by simp [hst])]
  · unfold mobileRefresh
    rw [claimToken_of_none _ _ hcons]

/-- Witness for C9: the user of the presented token does not exist, yet
the token comes out revoked and a retry is rejected. -/
theorem c9_mobile_refresh_consumes_on_failure_witness :
    (∃ e, e ≠ AuthErr.invalidToken ∧
      mobileRefresh [] [⟨"j1", "u1", "H1", 2, 0, 100, false, none⟩]
          ⟨"j1", "u1", 2, "H1"⟩ "j2" "H2" 5 105 =
        (Except.error e, [⟨"j1", "u1", "H1", 2, 0, 100, true, none⟩])) ∧
    (∀ x ∈ [(⟨"j1", "u1", "H1", 2, 0, 100, true, none⟩ : MobileToken)],
      claimMatches "H1" x = false) ∧
    mobileRefresh [] [⟨"j1", "u1", "H1", 2, 0, 100, true, none⟩]
        ⟨"j1", "u1", 2, "H1"⟩ "j3" "H3" 6 106 =
      (Except.error AuthErr.invalidToken,
        [⟨"j1", "u1", "H1", 2, 0, 100, true, none⟩]) :=
  c9_mobile_refresh_consumes_on_failure [] [⟨"j1", "u1", "H1", 2, 0, 100, false, none⟩]
    ⟨"j1", "u1", 2, "H1"⟩ ⟨"j1", "u1", "H1", 2, 0, 100, false, none⟩
    [⟨"j1", "u1", "H1", 2, 0, 100, true, none⟩]
    "j2" "H2" "j3" "H3" 5 105 6 106 (by decide) rfl (Or.inl rfl)

end HojasDeRuta
